import Mathlib

/-!
Verification development for the py-oxyroot binding (`src/lib.rs`).

The development shallowly embeds the core logic of the crate:
column selection and frame assembly (`tree_to_dataframe`), the single-branch
typed read (`PyBranch::array`), the parquet export (`PyTree::to_parquet`),
the multi-file aggregation (`concat_trees`), the worker-pool swap
(`set_num_threads`), and the lazy handle constructors (`open`,
`__getitem__`).  External collaborators (the oxyroot container parser,
polars, arrow, rayon, glob) are modelled at their interface boundary.
-/

set_option maxRecDepth 4096
set_option linter.unusedVariables false

/-- The closed set of supported scalar element kinds.  Mirrors the seven
type-tag match arms of `tree_to_dataframe` / `to_parquet` / `array`. -/
inductive ScalarKind where
  | f32 | f64 | i32 | i64 | u32 | u64 | utf8
deriving DecidableEq, Repr

/-- A decoded scalar value.  Floating-point payloads are carried as raw bit
patterns (`Nat`) so that equality of decoded data is plain structural
equality; no arithmetic is ever performed on values in the source. -/
inductive Val where
  | f32 (bits : Nat)
  | f64 (bits : Nat)
  | i32 (v : Int)
  | i64 (v : Int)
  | u32 (v : Nat)
  | u64 (v : Nat)
  | str (s : String)
deriving DecidableEq, Repr

/-- A branch of a tree as seen through the oxyroot boundary
(spec §6 TreeStore / TypedBranchReader): a name, the declared element-type
tag (`item_type_name()`), and the result of decoding the branch at its
tag's kind (`as_iter::<T>()` collected): either the decoded sequence or a
`DecodeError` message. -/
structure BranchData where
  name : String
  itemTypeName : String
  data : Except String (List Val)

/-- A tree: its branches in declared order (spec §6 `Tree.branches()`). -/
structure TreeData where
  branches : List BranchData

/-- `Tree.branch(name)`: look a branch up by exact name. -/
def TreeData.branch (t : TreeData) (n : String) : Option BranchData :=
  t.branches.find? (fun b => b.name = n)

/-- The seven type tags with a decoding path, exactly the match arms of
`tree_to_dataframe` (src/lib.rs lines 93-126). -/
def supportedTags : List String :=
  ["float", "double", "int32_t", "int64_t", "uint32_t", "uint64_t", "string"]

/-- The fixed tag → kind mapping table (spec §4.1 BranchTypeResolver),
read off the match arms of `to_parquet` (src/lib.rs lines 251-291). -/
def tagKind : String → Option ScalarKind
  | "float" => some .f32
  | "double" => some .f64
  | "int32_t" => some .i32
  | "int64_t" => some .i64
  | "uint32_t" => some .u32
  | "uint64_t" => some .u64
  | "string" => some .utf8
  | _ => none

/-- A polars column: a name plus cells; a missing cell (null) is `none`.
Columns produced from a branch are all-`some`; nulls only arise from
diagonal union. -/
structure Column where
  name : String
  cells : List (Option Val)
deriving DecidableEq, Repr

/-- A polars `DataFrame`: an ordered list of columns. -/
structure DataFrame where
  columns : List Column
deriving DecidableEq, Repr

/-- `DataFrame::default()`: the empty frame (zero columns). -/
def DataFrame.default : DataFrame := ⟨[]⟩

/-- `df.height()`: the row count — length of the first column, 0 if none. -/
def DataFrame.height (df : DataFrame) : Nat :=
  match df.columns with
  | [] => 0
  | c :: _ => c.cells.length

/-- All columns of the frame have the same length. -/
def DataFrame.uniform (df : DataFrame) : Bool :=
  match df.columns with
  | [] => true
  | c :: rest => rest.all (fun c2 => c2.cells.length = c.cells.length)

/-- The outcome of a Rust-side operation as observed from Python:
`ok` (a `PyResult::Ok`), `err` (a `PyResult::Err`, i.e. a `PyValueError`
carrying a message), or `panic` (a Rust panic — e.g. `.unwrap()` on an
`Err` — which pyo3 surfaces as a `PanicException`). -/
inductive RtResult (α : Type) where
  | ok (a : α)
  | err (msg : String)
  | panic (msg : String)
deriving DecidableEq, Repr

def RtResult.toOk {α : Type} : RtResult α → Option α
  | .ok a => some a
  | _ => none

def RtResult.isPanicB {α : Type} : RtResult α → Bool
  | .panic _ => true
  | _ => false

def RtResult.isErrB {α : Type} : RtResult α → Bool
  | .err _ => true
  | _ => false

/-- `DataFrame::new(columns)` (polars): fails if column names are not
unique or if the columns' lengths differ; otherwise wraps the columns. -/
def DataFrame.new (cols : List Column) : Except String DataFrame :=
  if (cols.map (fun c => c.name)).Nodup then
    if (DataFrame.mk cols).uniform then
      .ok ⟨cols⟩
    else
      .error "could not create a new DataFrame: series have different lengths"
  else
    .error "duplicate column names"

/-- The working set of branch names of `tree_to_dataframe`
(src/lib.rs lines 72-80): the `columns` list when given, else all branch
names in declared order; then every name occurring in `ignore_columns`
is removed. -/
def branchesToSave (t : TreeData) (columns ignoreColumns : Option (List String)) :
    List String :=
  let base := match columns with
    | some cs => cs
    | none => t.branches.map (fun b => b.name)
  match ignoreColumns with
  | some ig => base.filter (fun c => ¬ ig.contains c)
  | none => base

/-- The per-branch loop of `tree_to_dataframe` (src/lib.rs lines 84-128):
a missing branch is skipped with a diagnostic; an unsupported type tag is
skipped with a diagnostic; for a supported tag the branch is decoded with
`as_iter::<T>().unwrap()`, so a `DecodeError` panics; a successful decode
contributes one series named after the selected name. -/
def collectSeries (t : TreeData) : List String → RtResult (List Column)
  | [] => .ok []
  | n :: rest =>
    match t.branch n with
    | none => collectSeries t rest
    | some b =>
      if supportedTags.contains b.itemTypeName then
        match b.data with
        | .error e => .panic ("called `Result::unwrap()` on an `Err` value: " ++ e)
        | .ok vs =>
          match collectSeries t rest with
          | .ok cols => .ok (⟨n, vs.map some⟩ :: cols)
          | .err e => .err e
          | .panic m => .panic m
      else
        collectSeries t rest

/-- `tree_to_dataframe` (src/lib.rs lines 67-132): select the working set,
collect one series per resolvable branch, and run the result through
`DataFrame::new`, whose error becomes a `PyValueError`. -/
def tree_to_dataframe (t : TreeData) (columns ignoreColumns : Option (List String)) :
    RtResult DataFrame :=
  match collectSeries t (branchesToSave t columns ignoreColumns) with
  | .ok series =>
    match DataFrame.new series with
    | .ok df => .ok df
    | .error e => .err e
  | .err e => .err e
  | .panic m => .panic m

/-- A container file as seen through the oxyroot boundary (spec §6
TreeStore): its named trees, in key order. -/
structure RootFileData where
  trees : List (String × TreeData)

/-- The filesystem of container files: path → file contents. -/
abbrev FS := List (String × RootFileData)

/-- `RootFile::open(path)` (oxyroot boundary, spec §6): yields the file's
contents or an `OpenError`.  The error text comes from oxyroot's
`e.to_string()`; its exact wording is external, modelled here as a fixed
message naming the path. -/
def openRoot (fs : FS) (p : String) : Except String RootFileData :=
  match fs.lookup p with
  | some f => .ok f
  | none => .error ("cannot open file: " ++ p)

/-- `file.get_tree(name)` (oxyroot boundary, spec §6): the named tree or a
`NotFoundError`; the error text is oxyroot's, modelled as a fixed message. -/
def RootFileData.get_tree (f : RootFileData) (n : String) : Except String TreeData :=
  match f.trees.lookup n with
  | some t => .ok t
  | none => .error ("tree not found: " ++ n)

/-- The `RootFile` pyclass: records only the path (src/lib.rs lines 43-47). -/
structure PyRootFile where
  path : String
deriving DecidableEq, Repr

/-- The `Tree` pyclass: records only path and tree name (lines 49-55). -/
structure PyTree where
  path : String
  name : String
deriving DecidableEq, Repr

/-- The `Branch` pyclass: records path, tree name and branch name
(lines 57-65). -/
structure PyBranch where
  path : String
  tree_name : String
  name : String
deriving DecidableEq, Repr

/-- The module-level `open(path)` function (src/lib.rs lines 421-424):
always succeeds, merely recording the path. -/
def pyOpen (path : String) : Except String PyRootFile :=
  .ok ⟨path⟩

/-- `RootFile.__getitem__(name)` (src/lib.rs lines 150-155): always
succeeds, recording path and tree name. -/
def PyRootFile.getitem (f : PyRootFile) (n : String) : Except String PyTree :=
  .ok ⟨f.path, n⟩

/-- `Tree.__getitem__(name)` (src/lib.rs lines 169-175): always succeeds,
recording path, tree name and branch name. -/
def PyTree.getitem (t : PyTree) (n : String) : Except String PyBranch :=
  .ok ⟨t.path, t.name, n⟩

/-- `Branch.array()` (src/lib.rs lines 340-405): re-opens the file, looks
up tree then branch (error "Branch not found" if absent), dispatches on
the declared type tag; a supported tag decodes via `as_iter` whose error
is mapped to a `PyValueError` (not unwrapped here); an unsupported tag is
a `PyValueError` naming the tag.  The produced numpy array / list is
modelled by its value sequence. -/
def PyBranch.array (fs : FS) (pb : PyBranch) : RtResult (List Val) :=
  match openRoot fs pb.path with
  | .error e => .err e
  | .ok f =>
    match f.get_tree pb.tree_name with
    | .error e => .err e
    | .ok t =>
      match t.branch pb.name with
      | none => .err "Branch not found"
      | some b =>
        if supportedTags.contains b.itemTypeName then
          match b.data with
          | .error e => .err e
          | .ok vs => .ok vs
        else
          .err ("Unsupported branch type: " ++ b.itemTypeName)

/-- `Branch.typename` (src/lib.rs lines 407-418): re-opens the file, looks
up tree then branch ("Branch not found" if absent), returns the declared
type tag. -/
def PyBranch.typename (fs : FS) (pb : PyBranch) : RtResult String :=
  match openRoot fs pb.path with
  | .error e => .err e
  | .ok f =>
    match f.get_tree pb.tree_name with
    | .error e => .err e
    | .ok t =>
      match t.branch pb.name with
      | none => .err "Branch not found"
      | some b => .ok b.itemTypeName

/-- A persisted parquet file: the schema as the ordered (name, kind) list
of its fields, and the written column data (one value list per field). -/
structure PFile where
  fields : List (String × ScalarKind)
  arrays : List (List Val)
deriving DecidableEq, Repr

/-- The output filesystem: path → persisted parquet file. -/
abbrev OFS := List (String × PFile)

/-- `Path::new(p).exists()` over the modelled output filesystem. -/
def ofsExists (ofs : OFS) (p : String) : Bool :=
  (ofs.lookup p).isSome

/-- `File::create(p)` followed by a successful write: the new contents
replace whatever was at `p`. -/
def ofsWrite (ofs : OFS) (p : String) (f : PFile) : OFS :=
  (p, f) :: ofs.filter (fun e => e.1 ≠ p)

/-- The compression names accepted by `to_parquet`
(src/lib.rs lines 216-225). -/
def validCompression (c : String) : Bool :=
  ["snappy", "uncompressed", "gzip", "lzo", "brotli", "lz4", "zstd"].contains c

/-- The per-branch loop of `to_parquet` (src/lib.rs lines 242-294): a
missing branch or unsupported tag is skipped with a diagnostic; a
supported tag decodes via `as_iter::<T>().unwrap()`, so a `DecodeError`
panics; a successful decode contributes one (field, array) pair whose
field kind follows the fixed tag table. -/
def collectFieldsArrays (t : TreeData) :
    List String → RtResult (List ((String × ScalarKind) × List Val))
  | [] => .ok []
  | n :: rest =>
    match t.branch n with
    | none => collectFieldsArrays t rest
    | some b =>
      match tagKind b.itemTypeName with
      | none => collectFieldsArrays t rest
      | some k =>
        match b.data with
        | .error e => .panic ("called `Result::unwrap()` on an `Err` value: " ++ e)
        | .ok vs =>
          match collectFieldsArrays t rest with
          | .ok xs => .ok (((n, k), vs) :: xs)
          | .err e => .err e
          | .panic m => .panic m

/-- All arrays in the batch have the same length (the arrow
`RecordBatch::try_new` row-count check). -/
def uniformArrays : List (List Val) → Bool
  | [] => true
  | a :: rest => rest.all (fun a2 => a2.length = a.length)

/-- Everything `to_parquet` does after its overwrite guard
(src/lib.rs lines 216-312): validate the compression name, re-open the
file and look the tree up, run the per-branch collection loop,
assemble the record batch — `RecordBatch::try_new(..).unwrap()` panics
when the batch has no column or unequal array lengths (arrow boundary) —
then create the output file and write schema and batch to it. -/
def toParquetBody (rfs : FS) (ofs : OFS) (self : PyTree) (output_file : String)
    (compression : String) (columns : Option (List String)) :
    RtResult Unit × OFS :=
  if ¬ validCompression compression then
    (.err "Invalid compression type", ofs)
  else
    match openRoot rfs self.path with
    | .error e => (.err e, ofs)
    | .ok f =>
      match f.get_tree self.name with
      | .error e => (.err e, ofs)
      | .ok t =>
        let names := match columns with
          | some cs => cs
          | none => t.branches.map (fun b => b.name)
        match collectFieldsArrays t names with
        | .panic m => (.panic m, ofs)
        | .err e => (.err e, ofs)
        | .ok entries =>
          if entries.isEmpty then
            (.panic "RecordBatch::try_new failed: at least one column required", ofs)
          else if ¬ uniformArrays (entries.map (fun x => x.2)) then
            (.panic "RecordBatch::try_new failed: unequal array lengths", ofs)
          else
            (.ok (), ofsWrite ofs output_file
              ⟨entries.map (fun x => x.1), entries.map (fun x => x.2)⟩)

/-- `Tree.to_parquet` (src/lib.rs lines 204-313): first the overwrite
guard — if the output path exists and `overwrite` is false, fail with
"File exists, use overwrite=True" before touching anything else — then
the export body. -/
def to_parquet (rfs : FS) (ofs : OFS) (self : PyTree) (output_file : String)
    (overwrite : Bool) (compression : String) (columns : Option (List String)) :
    RtResult Unit × OFS :=
  if ¬ overwrite ∧ ofsExists ofs output_file then
    (.err "File exists, use overwrite=True", ofs)
  else
    toParquetBody rfs ofs self output_file compression columns

/-- A rayon thread pool, observed by its worker count. -/
structure ThreadPool where
  width : Nat
deriving DecidableEq, Repr

/-- `rayon::ThreadPoolBuilder::new().num_threads(n).build()` (rayon
boundary): per rayon's contract, `num_threads(0)` means "select the
number of threads automatically", so the built pool has the automatic
width `auto` (a positive, machine-dependent count) when `n = 0`, and
exactly `n` workers otherwise. -/
def rayonBuildPool (auto : Nat) (n : Nat) : ThreadPool :=
  ⟨if n = 0 then auto else n⟩

/-- The process-wide mutable state: the `POOL` static behind its lock
(src/lib.rs lines 24-31). -/
structure GlobalState where
  pool : ThreadPool
deriving DecidableEq, Repr

/-- The `POOL` static's initial value (src/lib.rs line 25): width
`max 1 (hw / 2)` for `hw` detected CPUs. -/
def initialState (hw : Nat) : GlobalState :=
  ⟨⟨max 1 (hw / 2)⟩⟩

/-- `set_num_threads(n)` (src/lib.rs lines 33-41): build a new pool via
the rayon builder and swap it into the `POOL` slot under the lock. -/
def set_num_threads (auto : Nat) (n : Nat) (st : GlobalState) :
    Except String Unit × GlobalState :=
  (.ok (), { st with pool := rayonBuildPool auto n })

/-- Completion of the per-index jobs in schedule order `σ` (the order in
which the pool's workers happen to finish): each completed index is
paired with that job's result.  Indices of `σ` outside the job list
complete nothing. -/
def completeInOrder {α : Type} (jobs : List α) (σ : List Nat) : List (Nat × α) :=
  σ.filterMap (fun i => (jobs.get? i).map (fun a => (i, a)))

/-- Rayon's indexed `collect`: regardless of completion order, results are
assembled back in input-index order. -/
def collectByIndex {α : Type} (n : Nat) (done : List (Nat × α)) : List α :=
  (List.range n).filterMap (fun i => done.lookup i)

/-- The ordered union of the input frames' column names, in order of first
appearance.  Modelled from the spec: the polars `concat_df_diagonal`
union schema, described in spec §3 "Diagonally-unioned Frame" and §9
(two-pass algorithm, pass 1). -/
def addNames (acc : List String) : List String → List String
  | [] => acc
  | n :: ns => if acc.contains n then addNames acc ns else addNames (acc ++ [n]) ns

/-- Union of all input frames' column names in first-appearance order. -/
def unionNames (dfs : List DataFrame) : List String :=
  dfs.foldl (fun acc df => addNames acc (df.columns.map (fun c => c.name))) []

/-- The cells a frame contributes to a unioned column: its own column's
cells when it has the name, else a null-filled run of its height.
Modelled from the spec: §9 two-pass algorithm, pass 2. -/
def colCells (df : DataFrame) (n : String) : List (Option Val) :=
  match df.columns.find? (fun c => c.name = n) with
  | some c => c.cells
  | none => List.replicate df.height none

/-- `polars::functions::concat_df_diagonal` (polars boundary).  Modelled
from the spec: §3 "Diagonally-unioned Frame" / §9 — the column set is the
ordered union of the inputs' column names; each input lacking a column
contributes null cells for its rows; rows are concatenated in input
order. -/
def concatDfDiagonal (dfs : List DataFrame) : DataFrame :=
  ⟨(unionNames dfs).map (fun n => ⟨n, (dfs.map (fun df => colCells df n)).flatten⟩)⟩

/-- The per-file job of `concat_trees` (src/lib.rs lines 455-462): open
the file, look the tree up, build the frame; each failure becomes a
`PyResult::Err` for that file. -/
def fileJob (fs : FS) (tree_name : String) (columns ignoreColumns : Option (List String))
    (path : String) : RtResult DataFrame :=
  match openRoot fs path with
  | .error e => .err e
  | .ok f =>
    match f.get_tree tree_name with
    | .error e => .err e
    | .ok t => tree_to_dataframe t columns ignoreColumns

/-- The aggregation core of `concat_trees` (src/lib.rs lines 451-473),
run on the expanded path list: the per-file jobs execute on the pool and
complete in schedule order `σ`, but rayon's `collect` reassembles their
results in path order; a panicking job (decode failure) propagates out of
the pool; `filter_map(Result::ok)` then silently drops every per-file
`Err`; zero surviving frames yield `DataFrame::default()`; otherwise the
survivors are diagonally concatenated. -/
def concatTreesFromFiles (fs : FS) (tree_name : String)
    (columns ignoreColumns : Option (List String)) (σ : List Nat)
    (pool : ThreadPool) (all_paths : List String) : RtResult DataFrame :=
  let jobs := collectByIndex all_paths.length
    (completeInOrder (all_paths.map (fileJob fs tree_name columns ignoreColumns)) σ)
  if jobs.any (fun j => j.isPanicB) then
    .panic "a worker thread panicked"
  else
    let dfs := jobs.filterMap RtResult.toOk
    if dfs.isEmpty then
      .ok DataFrame.default
    else
      .ok (concatDfDiagonal dfs)

/-- The inner entry loop of the pattern expansion (src/lib.rs lines
442-447): entries are taken in order; the first `GlobError` aborts the
whole call; matched paths are kept in order. -/
def collectEntries : List (Except String String) → Except String (List String)
  | [] => .ok []
  | .error e :: _ => .error e
  | .ok s :: rest =>
    match collectEntries rest with
    | .error e => .error e
    | .ok ss => .ok (s :: ss)

/-- Expansion of the path patterns (src/lib.rs lines 439-449): for each
pattern in order, `glob::glob` either fails (`PatternError`, fatal) or
yields entries, each itself a path or a `GlobError` (fatal); all matched
paths are concatenated in pattern order.  The glob function itself is the
filesystem boundary and is passed in. -/
def expandAll (glob : String → Except String (List (Except String String))) :
    List String → Except String (List String)
  | [] => .ok []
  | p :: rest =>
    match glob p with
    | .error e => .error e
    | .ok entries =>
      match collectEntries entries with
      | .error e => .error e
      | .ok ps =>
        match expandAll glob rest with
        | .error e => .error e
        | .ok rs => .ok (ps ++ rs)

/-- `concat_trees` (src/lib.rs lines 431-474): expand the patterns, then
run the aggregation core on the shared pool. -/
def concat_trees (glob : String → Except String (List (Except String String)))
    (fs : FS) (σ : List Nat) (pool : ThreadPool) (paths : List String)
    (tree_name : String) (columns ignoreColumns : Option (List String)) :
    RtResult DataFrame :=
  match expandAll glob paths with
  | .error e => .err e
  | .ok all_paths =>
    concatTreesFromFiles fs tree_name columns ignoreColumns σ pool all_paths

/-- Substring test on character lists: does the needle occur contiguously
inside the haystack?  Used to state that an error message mentions a
name. -/
def chPre : List Char → List Char → Bool
  | [], _ => true
  | _ :: _, [] => false
  | a :: as, b :: bs => a = b && chPre as bs

/-- Contiguous-occurrence test. -/
def chSub (n : List Char) : List Char → Bool
  | [] => chPre n []
  | b :: bs => chPre n (b :: bs) || chSub n bs

/-- `strContains needle hay`: the needle occurs contiguously in the hay. -/
def strContains (needle hay : String) : Bool :=
  chSub needle.data hay.data

/-! ### Helper lemmas -/

theorem lookup_completeInOrder {α : Type} (jobs : List α) :
    ∀ (σ : List Nat) (i : Nat), i ∈ σ → i < jobs.length →
      (completeInOrder jobs σ).lookup i = jobs.get? i := by
  intro σ
  induction σ with
  | nil => intro i hi; cases hi
  | cons j σ' ih =>
    intro i hi hlt
    unfold completeInOrder
    rw [List.filterMap_cons]
    cases hj : jobs.get? j with
    | none =>
      have hij : i ≠ j := by
        intro h
        subst h
        rw [List.get?_eq_get hlt] at hj
        exact Option.noConfusion hj
      have : i ∈ σ' := by
        cases List.mem_cons.mp hi with
        | inl h => exact absurd h hij
        | inr h => exact h
      simpa [completeInOrder] using ih i this hlt
    | some a =>
      simp only [Option.map_some']
      by_cases hij : j = i
      · subst hij
        simp only [List.lookup, beq_self_eq_true]
        exact hj.symm
      · have hmem : i ∈ σ' := by
          cases List.mem_cons.mp hi with
          | inl h => exact absurd h.symm hij
          | inr h => exact h
        have hbeq : (i == j) = false := beq_eq_false_iff_ne.mpr (fun h => hij h.symm)
        simp only [List.lookup, hbeq]
        simpa [completeInOrder] using ih i hmem hlt

theorem range_filterMap_get {α : Type} :
    ∀ (l : List α), (List.range l.length).filterMap (fun i => l.get? i) = l
  | [] => rfl
  | a :: l => by
    rw [List.length_cons, List.range_succ_eq_map, List.filterMap_cons]
    simp only [List.get?]
    rw [List.filterMap_map]
    exact congrArg (a :: ·)
      (show (List.range l.length).filterMap (fun i => l.get? i) = l from
        range_filterMap_get l)

theorem filterMap_ext_mem {α β : Type} {f g : α → Option β} :
    ∀ {l : List α}, (∀ a ∈ l, f a = g a) → l.filterMap f = l.filterMap g
  | [], _ => rfl
  | a :: l, h => by
    rw [List.filterMap_cons, List.filterMap_cons, h a (List.mem_cons_self a l),
      filterMap_ext_mem (fun x hx => h x (List.mem_cons_of_mem a hx))]

/-- Rayon's indexed parallel collect: whatever order the jobs complete in
(any permutation of the indices), the collected list is the job list in
input order. -/
theorem parCollect_eq {α : Type} (jobs : List α) (σ : List Nat)
    (hσ : σ.Perm (List.range jobs.length)) :
    collectByIndex jobs.length (completeInOrder jobs σ) = jobs := by
  unfold collectByIndex
  have h1 : ∀ i ∈ List.range jobs.length,
      (completeInOrder jobs σ).lookup i = jobs.get? i := by
    intro i hi
    exact lookup_completeInOrder jobs σ i (hσ.mem_iff.mpr hi) (List.mem_range.mp hi)
  rw [filterMap_ext_mem h1]
  exact range_filterMap_get jobs

theorem addNames_nodup : ∀ (ns acc : List String), acc.Nodup → (addNames acc ns).Nodup
  | [], acc, h => h
  | n :: ns, acc, h => by
    unfold addNames
    by_cases hc : acc.contains n
    · rw [if_pos hc]
      exact addNames_nodup ns acc h
    · rw [if_neg hc]
      refine addNames_nodup ns (acc ++ [n]) ?_
      have hnmem : n ∉ acc := by simpa using hc
      simp [List.nodup_append, h, hnmem]

theorem unionNames_nodup (dfs : List DataFrame) : (unionNames dfs).Nodup := by
  have key : ∀ (ds : List DataFrame) (acc : List String), acc.Nodup →
      (ds.foldl (fun a df => addNames a (df.columns.map (fun c => c.name))) acc).Nodup := by
    intro ds
    induction ds with
    | nil => intro acc h; exact h
    | cons d ds ih =>
      intro acc h
      exact ih _ (addNames_nodup _ acc h)
  exact key dfs [] List.nodup_nil

theorem concatDfDiagonal_names (dfs : List DataFrame) :
    (concatDfDiagonal dfs).columns.map (fun c => c.name) = unionNames dfs := by
  show (List.map (fun n => Column.mk n ((dfs.map (fun df => colCells df n)).flatten))
      (unionNames dfs)).map (fun c => c.name) = unionNames dfs
  generalize unionNames dfs = u
  induction u with
  | nil => rfl
  | cons x u ih =>
    simp only [List.map_cons]
    rw [ih]

theorem DataFrame.new_ok {cols : List Column} {df : DataFrame}
    (h : DataFrame.new cols = .ok df) :
    df = ⟨cols⟩ ∧ (cols.map (fun c => c.name)).Nodup ∧ df.uniform = true := by
  unfold DataFrame.new at h
  split_ifs at h with h1 h2
  · cases h
    exact ⟨rfl, h1, h2⟩

theorem tree_to_dataframe_ok {t : TreeData} {c i : Option (List String)} {df : DataFrame}
    (h : tree_to_dataframe t c i = .ok df) :
    (df.columns.map (fun col => col.name)).Nodup ∧ df.uniform = true := by
  cases hs : collectSeries t (branchesToSave t c i) with
  | ok series =>
    have h2 : (match DataFrame.new series with
        | Except.ok d => RtResult.ok d
        | Except.error e => RtResult.err e) = RtResult.ok df := by
      have h' := h
      unfold tree_to_dataframe at h'
      rw [hs] at h'
      exact h'
    cases hn : DataFrame.new series with
    | ok df' =>
      rw [hn] at h2
      have h3 : RtResult.ok (α := DataFrame) df' = RtResult.ok df := h2
      cases h3
      obtain ⟨hdf, hnd, hu⟩ := DataFrame.new_ok hn
      subst hdf
      exact ⟨hnd, hu⟩
    | error e =>
      rw [hn] at h2
      have h3 : RtResult.err (α := DataFrame) e = RtResult.ok df := h2
      exact RtResult.noConfusion h3
  | err e =>
    have h2 : RtResult.err (α := DataFrame) e = RtResult.ok df := by
      have h' := h
      unfold tree_to_dataframe at h'
      rw [hs] at h'
      exact h'
    exact RtResult.noConfusion h2
  | panic m =>
    have h2 : RtResult.panic (α := DataFrame) m = RtResult.ok df := by
      have h' := h
      unfold tree_to_dataframe at h'
      rw [hs] at h'
      exact h'
    exact RtResult.noConfusion h2

theorem collectSeries_skip_unsupported (t : TreeData) (n : String) (b : BranchData)
    (hb : t.branch n = some b) (hu : supportedTags.contains b.itemTypeName = false) :
    ∀ (l₁ l₂ : List String), collectSeries t (l₁ ++ n :: l₂) = collectSeries t (l₁ ++ l₂)
  | [], l₂ => by
    have hcond : ¬ (supportedTags.contains b.itemTypeName = true) := by
      rw [hu]
      exact Bool.false_ne_true
    show collectSeries t (n :: l₂) = collectSeries t l₂
    simp only [collectSeries, hb]
    rw [if_neg hcond]
  | m :: l₁, l₂ => by
    have ih := collectSeries_skip_unsupported t n b hb hu l₁ l₂
    simp only [List.cons_append, collectSeries, List.append_eq]
    rw [ih]

theorem collectSeries_panics (t : TreeData) (n : String) (b : BranchData) (e : String)
    (hb : t.branch n = some b) (hs : supportedTags.contains b.itemTypeName = true)
    (hd : b.data = .error e) :
    ∀ (l : List String), n ∈ l → ∃ m, collectSeries t l = .panic m
  | [], h => absurd h (List.not_mem_nil n)
  | m :: l, h => by
    simp only [collectSeries]
    by_cases hmn : m = n
    · subst hmn
      simp only [hb]
      rw [if_pos hs, hd]
      exact ⟨_, rfl⟩
    · have hl : n ∈ l := by
        cases List.mem_cons.mp h with
        | inl hh => exact absurd hh.symm hmn
        | inr hh => exact hh
      obtain ⟨mm, hmm⟩ := collectSeries_panics t n b e hb hs hd l hl
      cases hbm : t.branch m with
      | none =>
        simp only [hbm]
        exact ⟨mm, hmm⟩
      | some b' =>
        simp only [hbm]
        by_cases hsb : supportedTags.contains b'.itemTypeName = true
        · rw [if_pos hsb]
          cases hdb : b'.data with
          | error e' =>
            exact ⟨_, rfl⟩
          | ok vs =>
            rw [hmm]
            exact ⟨mm, rfl⟩
        · rw [if_neg hsb]
          exact ⟨mm, hmm⟩

theorem concatFromFiles_seq (fs : FS) (tn : String) (c i : Option (List String))
    (pool : ThreadPool) (aps : List String) (σ : List Nat)
    (hσ : σ.Perm (List.range aps.length)) :
    concatTreesFromFiles fs tn c i σ pool aps =
      (if (aps.map (fileJob fs tn c i)).any (fun j => j.isPanicB) then
        .panic "a worker thread panicked"
      else if ((aps.map (fileJob fs tn c i)).filterMap RtResult.toOk).isEmpty then
        .ok DataFrame.default
      else
        .ok (concatDfDiagonal ((aps.map (fileJob fs tn c i)).filterMap RtResult.toOk))) := by
  unfold concatTreesFromFiles
  have hc : collectByIndex aps.length
      (completeInOrder (aps.map (fileJob fs tn c i)) σ) = aps.map (fileJob fs tn c i) := by
    have := parCollect_eq (aps.map (fileJob fs tn c i)) σ (by simpa using hσ)
    rwa [List.length_map] at this
  rw [hc]

theorem isErr_facts {α : Type} {r : RtResult α} (h : r.isErrB = true) :
    r.isPanicB = false ∧ r.toOk = none := by
  cases r with
  | ok a => exact absurd h (by simp [RtResult.isErrB])
  | err e => exact ⟨rfl, rfl⟩
  | panic m => exact absurd h (by simp [RtResult.isErrB])

/-! ### Concrete fixtures -/

/-- Branch `a`: two `float` entries. -/
def bA : BranchData := ⟨"a", "float", .ok [.f32 1, .f32 2]⟩

/-- Branch `b`: two `int32_t` entries. -/
def bB : BranchData := ⟨"b", "int32_t", .ok [.i32 10, .i32 20]⟩

/-- Branch `c`: two `double` entries. -/
def bC : BranchData := ⟨"c", "double", .ok [.f64 5, .f64 6]⟩

/-- A branch whose declared type tag has no decoding path. -/
def bU : BranchData := ⟨"u", "vector<float>", .ok [.f32 9]⟩

/-- A branch whose decode fails. -/
def bBad : BranchData := ⟨"x", "float", .error "decode failed"⟩

/-- A tree with branches {a, b, c}. -/
def treeABC : TreeData := ⟨[bA, bB, bC]⟩

/-- A tree with a supported, an unsupported, and a supported branch. -/
def treeWithU : TreeData := ⟨[bA, bU, bB]⟩

/-- A tree whose only branch fails to decode. -/
def treeBad : TreeData := ⟨[bBad]⟩

/-- A filesystem with one container file holding `treeWithU`. -/
def fsU : FS := [("f.root", ⟨[("t", treeWithU)]⟩)]

/-- A tree with a single branch named `xyz`. -/
def tree9 : TreeData := ⟨[⟨"xyz", "float", .ok []⟩]⟩

/-- A filesystem with one container file holding `tree9`. -/
def fs9 : FS := [("f9.root", ⟨[("t", tree9)]⟩)]

/-- A pre-existing output file. -/
def ofsExisting : OFS := [("out.parquet", ⟨[], []⟩)]

/-! ### Claims -/

/-- C1: frame building selects columns by first taking exactly the include
list in its order (or, when include is absent, all branch names in the
tree's declared order), and then removing every name in the exclude list;
for a tree with branches {a,b,c}, building with include={a,b},
exclude={b} yields a frame with exactly column `a`. -/
theorem C1_column_selection :
    (∀ (t : TreeData) (inc exc : List String),
      branchesToSave t (some inc) (some exc) = inc.filter (fun c => ¬ exc.contains c))
    ∧ (∀ (t : TreeData) (exc : List String),
      branchesToSave t none (some exc) =
        (t.branches.map (fun b => b.name)).filter (fun c => ¬ exc.contains c))
    ∧ (∀ (t : TreeData) (inc : List String), branchesToSave t (some inc) none = inc)
    ∧ (∀ (t : TreeData), branchesToSave t none none = t.branches.map (fun b => b.name))
    ∧ tree_to_dataframe treeABC (some ["a", "b"]) (some ["b"]) =
        .ok ⟨[⟨"a", [some (.f32 1), some (.f32 2)]⟩]⟩ :=
  ⟨fun _ _ _ => rfl, fun _ _ => rfl, fun _ _ => rfl, fun _ => rfl, by decide⟩

/-- C2: a branch whose declared type tag is unsupported makes the
single-branch read fail with an Unsupported-type error, while the frame
build merely omits that branch from the collection loop and, on a
concrete tree, still returns the frame of the remaining branches. -/
theorem C2_unsupported_branch :
    (∀ (fs : FS) (pb : PyBranch) (f : RootFileData) (t : TreeData) (b : BranchData),
      openRoot fs pb.path = .ok f →
      f.get_tree pb.tree_name = .ok t →
      t.branch pb.name = some b →
      supportedTags.contains b.itemTypeName = false →
      PyBranch.array fs pb = .err ("Unsupported branch type: " ++ b.itemTypeName))
    ∧ (∀ (t : TreeData) (n : String) (b : BranchData) (l₁ l₂ : List String),
      t.branch n = some b →
      supportedTags.contains b.itemTypeName = false →
      collectSeries t (l₁ ++ n :: l₂) = collectSeries t (l₁ ++ l₂))
    ∧ tree_to_dataframe treeWithU none none =
        .ok ⟨[⟨"a", [some (.f32 1), some (.f32 2)]⟩,
              ⟨"b", [some (.i32 10), some (.i32 20)]⟩]⟩ := by
  refine ⟨?_, fun t n b l₁ l₂ hb hu => collectSeries_skip_unsupported t n b hb hu l₁ l₂,
    by decide⟩
  intro fs pb f t b ho hg hb hu
  have hcond : ¬ (supportedTags.contains b.itemTypeName = true) := by
    rw [hu]
    exact Bool.false_ne_true
  unfold PyBranch.array
  simp only [ho, hg, hb]
  rw [if_neg hcond]

/-- C2 witness: both implications applied to `treeWithU` at branch `u`. -/
theorem C2_unsupported_branch_witness :
    PyBranch.array fsU ⟨"f.root", "t", "u"⟩ =
      .err ("Unsupported branch type: " ++ bU.itemTypeName)
    ∧ collectSeries treeWithU (["a"] ++ "u" :: ["b"]) =
      collectSeries treeWithU (["a"] ++ ["b"]) :=
  ⟨C2_unsupported_branch.1 fsU ⟨"f.root", "t", "u"⟩ ⟨[("t", treeWithU)]⟩ treeWithU bU
      rfl rfl rfl rfl,
   C2_unsupported_branch.2.1 treeWithU "u" bU ["a"] ["b"] rfl rfl⟩

/-- C3: if any selected branch is present, has a supported type, and its
decode fails, the whole frame build fails (the decode failure is a panic
surfaced to the caller); it is never suppressed and the column is never
silently dropped. -/
theorem C3_decode_failure_fatal :
    ∀ (t : TreeData) (c i : Option (List String)) (n : String) (b : BranchData) (e : String),
      n ∈ branchesToSave t c i →
      t.branch n = some b →
      supportedTags.contains b.itemTypeName = true →
      b.data = .error e →
      ∃ m, tree_to_dataframe t c i = .panic m := by
  intro t c i n b e hmem hb hs hd
  obtain ⟨m, hm⟩ := collectSeries_panics t n b e hb hs hd _ hmem
  refine ⟨m, ?_⟩
  unfold tree_to_dataframe
  rw [hm]

/-- C3 witness: the build over `treeBad` fails with a panic. -/
theorem C3_decode_failure_fatal_witness :
    ∃ m, tree_to_dataframe treeBad none none = .panic m :=
  C3_decode_failure_fatal treeBad none none "x" bBad "decode failed"
    (by decide) rfl rfl rfl

/-- C4: exporting to an existing path with overwrite = false fails with
the already-exists error before any decoding work (the result does not
depend on the input filesystem) and leaves the output filesystem
unchanged; with overwrite = true the export proceeds to the body. -/
theorem C4_overwrite_guard :
    (∀ (rfs : FS) (ofs : OFS) (s : PyTree) (out comp : String) (cols : Option (List String)),
      ofsExists ofs out = true →
      to_parquet rfs ofs s out false comp cols =
        (.err "File exists, use overwrite=True", ofs))
    ∧ (∀ (rfs : FS) (ofs : OFS) (s : PyTree) (out comp : String) (cols : Option (List String)),
      to_parquet rfs ofs s out true comp cols = toParquetBody rfs ofs s out comp cols) := by
  constructor
  · intro rfs ofs s out comp cols hex
    unfold to_parquet
    rw [if_pos ⟨fun hh => Bool.noConfusion hh, hex⟩]
  · intro rfs ofs s out comp cols
    unfold to_parquet
    rw [if_neg (fun hh => hh.1 rfl)]

/-- C4 witness: a concrete blocked export and a concrete proceeding one. -/
theorem C4_overwrite_guard_witness :
    to_parquet [] ofsExisting ⟨"p.root", "t"⟩ "out.parquet" false "snappy" none =
      (.err "File exists, use overwrite=True", ofsExisting)
    ∧ to_parquet [] [] ⟨"p.root", "t"⟩ "out.parquet" true "snappy" none =
      toParquetBody [] [] ⟨"p.root", "t"⟩ "out.parquet" "snappy" none :=
  ⟨C4_overwrite_guard.1 [] ofsExisting ⟨"p.root", "t"⟩ "out.parquet" "snappy" none rfl,
   C4_overwrite_guard.2 [] [] ⟨"p.root", "t"⟩ "out.parquet" "snappy" none⟩

/-- C5: per-file failures of the aggregation are dropped silently — the
result over a path list containing a failing file equals the result
without that file — and when every file fails the aggregation returns the
empty frame (zero columns, zero rows) instead of failing. -/
theorem C5_best_effort_aggregation :
    (∀ (fs : FS) (tn : String) (c i : Option (List String)) (pool : ThreadPool)
        (σ₁ σ₂ : List Nat) (l₁ l₂ : List String) (p : String),
      σ₁.Perm (List.range (l₁ ++ p :: l₂).length) →
      σ₂.Perm (List.range (l₁ ++ l₂).length) →
      (fileJob fs tn c i p).isErrB = true →
      concatTreesFromFiles fs tn c i σ₁ pool (l₁ ++ p :: l₂) =
        concatTreesFromFiles fs tn c i σ₂ pool (l₁ ++ l₂))
    ∧ (∀ (fs : FS) (tn : String) (c i : Option (List String)) (pool : ThreadPool)
        (σ : List Nat) (aps : List String),
      σ.Perm (List.range aps.length) →
      (∀ p ∈ aps, (fileJob fs tn c i p).isErrB = true) →
      concatTreesFromFiles fs tn c i σ pool aps = .ok DataFrame.default)
    ∧ DataFrame.default.columns = [] ∧ DataFrame.default.height = 0 := by
  refine ⟨?_, ?_, rfl, rfl⟩
  · intro fs tn c i pool σ₁ σ₂ l₁ l₂ p h1 h2 hp
    obtain ⟨hpan, htoOk⟩ := isErr_facts hp
    rw [concatFromFiles_seq fs tn c i pool _ σ₁ h1, concatFromFiles_seq fs tn c i pool _ σ₂ h2]
    simp only [List.map_append, List.map_cons, List.any_append, List.any_cons, hpan,
      List.filterMap_append, List.filterMap_cons, htoOk, Bool.false_or]
  · intro fs tn c i pool σ aps hσ hall
    rw [concatFromFiles_seq fs tn c i pool aps σ hσ]
    have h1 : (aps.map (fileJob fs tn c i)).any (fun j => j.isPanicB) = false := by
      rw [List.any_eq_false]
      intro x hx
      obtain ⟨p, hp, rfl⟩ := List.mem_map.mp hx
      simp [(isErr_facts (hall p hp)).1]
    have h2 : (aps.map (fileJob fs tn c i)).filterMap RtResult.toOk = [] := by
      rw [List.filterMap_eq_nil_iff]
      intro x hx
      obtain ⟨p, hp, rfl⟩ := List.mem_map.mp hx
      exact (isErr_facts (hall p hp)).2
    simp [h1, h2]

/-- C5 witness: over an empty filesystem every per-file job fails; the
failing file `x` is dropped and the all-failing aggregation is the empty
frame. -/
theorem C5_best_effort_aggregation_witness :
    concatTreesFromFiles [] "t" none none [0, 1] ⟨1⟩ ["x", "y"] =
      concatTreesFromFiles [] "t" none none [0] ⟨1⟩ ["y"]
    ∧ concatTreesFromFiles [] "t" none none [0] ⟨1⟩ ["y"] = .ok DataFrame.default :=
  ⟨C5_best_effort_aggregation.1 [] "t" none none ⟨1⟩ [0, 1] [0] [] ["y"] "x"
      (by decide) (by decide) (by decide),
   C5_best_effort_aggregation.2.1 [] "t" none none ⟨1⟩ [0] ["y"] (by decide) (by decide)⟩

/-- C6: every frame returned by a frame build satisfies the frame
invariant — unique column names and uniform column length — and every
frame returned by the aggregation has unique column names. -/
theorem C6_frame_invariant :
    (∀ (t : TreeData) (c i : Option (List String)) (df : DataFrame),
      tree_to_dataframe t c i = .ok df →
      (df.columns.map (fun col => col.name)).Nodup ∧ df.uniform = true)
    ∧ (∀ (fs : FS) (tn : String) (c i : Option (List String)) (σ : List Nat)
        (pool : ThreadPool) (aps : List String) (df : DataFrame),
      concatTreesFromFiles fs tn c i σ pool aps = .ok df →
      (df.columns.map (fun col => col.name)).Nodup) := by
  refine ⟨fun t c i df h => tree_to_dataframe_ok h, ?_⟩
  intro fs tn c i σ pool aps df h
  have h' : (if (collectByIndex aps.length
        (completeInOrder (aps.map (fileJob fs tn c i)) σ)).any (fun j => j.isPanicB) then
        (RtResult.panic (α := DataFrame) "a worker thread panicked")
      else if ((collectByIndex aps.length
          (completeInOrder (aps.map (fileJob fs tn c i)) σ)).filterMap RtResult.toOk).isEmpty then
        .ok DataFrame.default
      else
        .ok (concatDfDiagonal ((collectByIndex aps.length
          (completeInOrder (aps.map (fileJob fs tn c i)) σ)).filterMap RtResult.toOk))) =
      .ok df := h
  by_cases hp : (collectByIndex aps.length
      (completeInOrder (aps.map (fileJob fs tn c i)) σ)).any (fun j => j.isPanicB) = true
  · rw [if_pos hp] at h'
    exact RtResult.noConfusion h'
  · rw [if_neg hp] at h'
    by_cases he : ((collectByIndex aps.length
        (completeInOrder (aps.map (fileJob fs tn c i)) σ)).filterMap RtResult.toOk).isEmpty = true
    · rw [if_pos he] at h'
      have h3 : RtResult.ok DataFrame.default = RtResult.ok df := h'
      cases h3
      exact List.nodup_nil
    · rw [if_neg he] at h'
      have h3 : RtResult.ok (concatDfDiagonal ((collectByIndex aps.length
          (completeInOrder (aps.map (fileJob fs tn c i)) σ)).filterMap RtResult.toOk)) =
          RtResult.ok df := h'
      cases h3
      rw [concatDfDiagonal_names]
      exact unionNames_nodup _

/-- The frame built from `treeABC` with no selection arguments. -/
def dfABC : DataFrame :=
  ⟨[⟨"a", [some (.f32 1), some (.f32 2)]⟩,
    ⟨"b", [some (.i32 10), some (.i32 20)]⟩,
    ⟨"c", [some (.f64 5), some (.f64 6)]⟩]⟩

/-- C6 witness: both parts applied — to the build over `treeABC` and to
the empty aggregation. -/
theorem C6_frame_invariant_witness :
    ((dfABC.columns.map (fun col => col.name)).Nodup ∧ dfABC.uniform = true)
    ∧ (DataFrame.default.columns.map (fun col => col.name)).Nodup :=
  ⟨C6_frame_invariant.1 treeABC none none dfABC (by decide),
   C6_frame_invariant.2 [] "t" none none [] ⟨1⟩ [] DataFrame.default (by decide)⟩

/-- C7 counterexample: the claim "for every n the new pool has exactly n
workers" fails at n = 0 — the rayon builder treats 0 as "select
automatically", so with automatic width 5 the swapped-in pool has width
5, not 0. -/
theorem C7_pool_swap_counterexample :
    (set_num_threads 5 0 ⟨⟨2⟩⟩).2.pool.width = 5 ∧ (5 : Nat) ≠ 0 := by decide

/-- C7 amended: for every n ≥ 1, set_num_threads builds a pool of exactly
n workers and swaps it into the process-wide pool slot. -/
theorem C7_pool_swap_amended :
    ∀ (auto n : Nat) (st : GlobalState), 1 ≤ n →
      set_num_threads auto n st = (.ok (), ⟨⟨n⟩⟩)
      ∧ ((set_num_threads auto n st).2).pool.width = n := by
  intro auto n st h
  obtain ⟨p⟩ := st
  have hne : n ≠ 0 := Nat.one_le_iff_ne_zero.mp h
  constructor
  · unfold set_num_threads rayonBuildPool
    rw [if_neg hne]
  · unfold set_num_threads rayonBuildPool
    simp [hne]

/-- C7 witness: the amended statement at auto = 4, n = 2. -/
theorem C7_pool_swap_amended_witness :
    set_num_threads 4 2 (initialState 8) = (.ok (), ⟨⟨2⟩⟩)
    ∧ ((set_num_threads 4 2 (initialState 8)).2).pool.width = 2 :=
  C7_pool_swap_amended 4 2 (initialState 8) (by decide)

/-- C8: for a fixed set of input files and arguments the aggregated frame
is identical whatever the pool width and whatever order the per-file jobs
complete in: any two completion schedules (permutations of the expanded
file indices) and any two pool widths give the same result. -/
theorem C8_result_schedule_independent :
    ∀ (glob : String → Except String (List (Except String String))) (fs : FS)
      (σ₁ σ₂ : List Nat) (w₁ w₂ : ThreadPool) (paths : List String)
      (tn : String) (c i : Option (List String)) (aps : List String),
      expandAll glob paths = .ok aps →
      σ₁.Perm (List.range aps.length) →
      σ₂.Perm (List.range aps.length) →
      concat_trees glob fs σ₁ w₁ paths tn c i = concat_trees glob fs σ₂ w₂ paths tn c i := by
  intro glob fs σ₁ σ₂ w₁ w₂ paths tn c i aps hexp h1 h2
  unfold concat_trees
  simp only [hexp]
  rw [concatFromFiles_seq fs tn c i w₁ aps σ₁ h1, concatFromFiles_seq fs tn c i w₂ aps σ₂ h2]

/-- C8 witness: two files, reversed completion order, and pool widths 1
and 4 produce the same result. -/
theorem C8_result_schedule_independent_witness :
    concat_trees (fun p => .ok [.ok p]) [] [1, 0] ⟨1⟩ ["x", "y"] "t" none none =
      concat_trees (fun p => .ok [.ok p]) [] [0, 1] ⟨4⟩ ["x", "y"] "t" none none :=
  C8_result_schedule_independent (fun p => .ok [.ok p]) [] [1, 0] [0, 1] ⟨1⟩ ⟨4⟩
    ["x", "y"] "t" none none ["x", "y"] rfl (by decide) (by decide)

/-- C9 counterexample: the branch-not-found error of the single-branch
read is the fixed message "Branch not found"; it does not list the
branches that do exist in the tree — the only existing branch name `xyz`
does not occur in the message. -/
theorem C9_message_counterexample :
    PyBranch.array fs9 ⟨"f9.root", "t", "nope"⟩ = .err "Branch not found"
    ∧ (∀ n ∈ tree9.branches.map (fun b => b.name),
        strContains n "Branch not found" = false) := by decide

/-- C9 amended: a branch-not-found failure of the single-branch read or
of the typename getter propagates as a typed error with the fixed
human-readable message "Branch not found", without the set of valid
alternatives. -/
theorem C9_not_found_message :
    ∀ (fs : FS) (pb : PyBranch) (f : RootFileData) (t : TreeData),
      openRoot fs pb.path = .ok f →
      f.get_tree pb.tree_name = .ok t →
      t.branch pb.name = none →
      PyBranch.array fs pb = .err "Branch not found"
      ∧ PyBranch.typename fs pb = .err "Branch not found" := by
  intro fs pb f t ho hg hb
  constructor
  · unfold PyBranch.array
    simp only [ho, hg, hb]
  · unfold PyBranch.typename
    simp only [ho, hg, hb]

/-- C9 witness: the amended statement at a concrete missing branch. -/
theorem C9_not_found_message_witness :
    PyBranch.array fs9 ⟨"f9.root", "t", "zz"⟩ = .err "Branch not found"
    ∧ PyBranch.typename fs9 ⟨"f9.root", "t", "zz"⟩ = .err "Branch not found" :=
  C9_not_found_message fs9 ⟨"f9.root", "t", "zz"⟩ ⟨[("t", tree9)]⟩ tree9 rfl rfl rfl

/-- C10: handle construction never fails — `open`, `RootFile.__getitem__`
and `Tree.__getitem__` always succeed and merely record the names — and
existence is only checked when data is read: reading a branch of a path
absent from the filesystem is when the error is raised. -/
theorem C10_lazy_handles :
    (∀ (p : String), pyOpen p = .ok ⟨p⟩)
    ∧ (∀ (f : PyRootFile) (n : String), PyRootFile.getitem f n = .ok ⟨f.path, n⟩)
    ∧ (∀ (t : PyTree) (n : String), PyTree.getitem t n = .ok ⟨t.path, t.name, n⟩)
    ∧ (∀ (fs : FS) (pb : PyBranch), fs.lookup pb.path = none →
        ∃ e, PyBranch.array fs pb = .err e) := by
  refine ⟨fun _ => rfl, fun _ _ => rfl, fun _ _ => rfl, ?_⟩
  intro fs pb h
  refine ⟨"cannot open file: " ++ pb.path, ?_⟩
  unfold PyBranch.array openRoot
  simp only [h]

/-- C10 witness: reading through a handle whose path does not exist
raises the error at read time. -/
theorem C10_lazy_handles_witness :
    ∃ e, PyBranch.array [] ⟨"nofile", "t", "b"⟩ = .err e :=
  C10_lazy_handles.2.2.2 [] ⟨"nofile", "t", "b"⟩ rfl
